import Mathlib

/-!
Verification development for the WBGT Telegram bot (src/wbgt_bot.py and the
two program variants in src/unnamed/part_000).  The Python core is embedded
shallowly:

* JSON values decoded by json parsing are modelled by the mutual inductive
  type Json below.  Numeric leaves carry the rendered text of the number
  (the program never computes with payload numbers, it only passes them
  through to f-strings), so this representation is faithful for every
  operation the program performs on them.
* dict.get, truthiness, iteration and f-string rendering follow the Python
  semantics; places where the Python code would raise an exception are
  modelled as Option.none (every such exception either aborts the handler
  or is caught by the surrounding except block, which the controller model
  reflects).
* datetime.datetime.strptime with the pattern "%Y-%m-%d" and
  datetime.datetime.fromisoformat are modelled on ASCII digit strings
  following the regexes CPython compiles the pattern to
  (the grammar of fromisoformat below is the classic one documented for
  CPython: a YYYY-MM-DD date, an optional single separator character,
  HH[:MM[:SS[.fff[fff]]]], and an optional +-HH:MM[:SS[.ffffff]] offset;
  the program itself replaces a literal "Z" with "+00:00" before parsing
  sort keys, so sorting never feeds a "Z" form to the parser).
* Python's sorted is stable; it is modelled by a stable insertion sort and
  the stability property is proved, so the model agrees with any stable
  sorting algorithm.
-/

mutual
/-- Json values as produced by parsing the upstream response body.  JArr and
JObj are inlined list types so that all recursion over Json stays structural
(a Python dict preserves insertion order, which JObj preserves as well). -/
inductive Json where
  | null
  | bool (b : Bool)
  | num (lit : String)
  | str (s : String)
  | arr (elems : JArr)
  | obj (fields : JObj)
deriving DecidableEq, Repr
inductive JArr where
  | nil
  | cons (hd : Json) (tl : JArr)
deriving DecidableEq, Repr
inductive JObj where
  | nil
  | cons (key : String) (val : Json) (tl : JObj)
deriving DecidableEq, Repr
end

/-- The elements of a JArr as an ordinary list. -/
def JArr.toList : JArr → List Json
  | .nil => []
  | .cons x t => x :: t.toList

/-- The key/value pairs of a JObj as an ordinary list, in insertion order. -/
def JObj.toList : JObj → List (String × Json)
  | .nil => []
  | .cons k v t => (k, v) :: t.toList

/-- Build a JArr from a list (used to write concrete payloads). -/
def JArr.ofList : List Json → JArr
  | [] => .nil
  | x :: t => .cons x (JArr.ofList t)

/-- Build a JObj from a list of pairs (used to write concrete payloads). -/
def JObj.ofList : List (String × Json) → JObj
  | [] => .nil
  | (k, v) :: t => .cons k v (JObj.ofList t)

/-- Json array literal from a list. -/
def Json.arrL (l : List Json) : Json := .arr (JArr.ofList l)

/-- Json object literal from a list of pairs. -/
def Json.objL (l : List (String × Json)) : Json := .obj (JObj.ofList l)

/-- Looking a key up in a Python dict: the first binding with that key
(keys of a parsed JSON object are unique, so first = only). -/
def lookupField : List (String × Json) → String → Option Json
  | [], _ => none
  | (k, v) :: t, key => if k = key then some v else lookupField t key

/-- Python d.get(key, default) on a dict d: returns the stored value when the
key is PRESENT (even when that value is None), and the default only when the
key is absent.  On a receiver that is not a dict the Python attribute lookup
raises, which is modelled as none. -/
def Json.get : Json → String → Json → Option Json
  | .obj fs, key, dflt => some ((lookupField fs.toList key).getD dflt)
  | _, _, _ => none

/-- Python d.get(key) with no default: absent keys give None. -/
def Json.get1 (j : Json) (key : String) : Option Json := j.get key .null

/-- Python truthiness of a value (used by the `if not records` check).
A number is falsy exactly when its mantissa has no nonzero digit, which
matches float/int zero for every JSON numeral. -/
def Json.truthy : Json → Bool
  | .null => false
  | .bool b => b
  | .num lit =>
      (lit.toList.takeWhile (fun c => c != 'e' && c != 'E')).any
        (fun c => decide ('1' ≤ c) && decide (c ≤ '9'))
  | .str s => s != ""
  | .arr a => !a.toList.isEmpty
  | .obj o => !o.toList.isEmpty

/-- Python iteration over a value (`for x in v`): lists yield their elements,
strings their characters (as one-character strings), dicts their keys; other
values raise TypeError, modelled as none. -/
def Json.iter : Json → Option (List Json)
  | .arr a => some a.toList
  | .obj o => some (o.toList.map (fun p => Json.str p.1))
  | .str s => some (s.toList.map (fun c => Json.str (String.singleton c)))
  | _ => none

/-- Rendering of a scalar inside a Python f-string (str()).  The program only
ever renders the scalar payload fields (timestamps, station labels, WBGT
numbers, heat-stress labels) and None; container values are rendered through
their repr, modelled for the ASCII payload strings that occur here. -/
def pyReprStr (s : String) : String :=
  if s.toList.contains '\'' ∧ ¬ s.toList.contains '"'
  then "\"" ++ s ++ "\""
  else "'" ++ s ++ "'"

mutual
def Json.pyStr : Json → String
  | .null => "None"
  | .bool b => if b then "True" else "False"
  | .num lit => lit
  | .str s => s
  | .arr a => "\x5b" ++ JArr.reprItems a ++ "]"
  | .obj o => "\x7b" ++ JObj.reprItems o ++ "\x7d"
def Json.pyRepr : Json → String
  | .null => "None"
  | .bool b => if b then "True" else "False"
  | .num lit => lit
  | .str s => pyReprStr s
  | .arr a => "\x5b" ++ JArr.reprItems a ++ "]"
  | .obj o => "\x7b" ++ JObj.reprItems o ++ "\x7d"
def JArr.reprItems : JArr → String
  | .nil => ""
  | .cons x .nil => Json.pyRepr x
  | .cons x t => Json.pyRepr x ++ ", " ++ JArr.reprItems t
def JObj.reprItems : JObj → String
  | .nil => ""
  | .cons k v .nil => pyReprStr k ++ ": " ++ Json.pyRepr v
  | .cons k v t => pyReprStr k ++ ": " ++ Json.pyRepr v ++ ", " ++ JObj.reprItems t
end

/-- Python str.replace("Z", "+00:00"): the pattern is a single character, so
the replacement is character-wise. -/
def pyReplaceZ (s : String) : String :=
  ⟨s.toList.flatMap (fun c => if c = 'Z' then "+00:00".toList else [c])⟩

/-- Python string comparison is code-point lexicographic; this is < on the
character lists. -/
def charListLt : List Char → List Char → Bool
  | [], [] => false
  | [], _ :: _ => true
  | _ :: _, [] => false
  | a :: as, b :: bs => decide (a < b) || (a == b && charListLt as bs)

/-- Python a <= b on strings. -/
def pyStrLe (a b : String) : Bool := !(charListLt b.toList a.toList)

/-- Maximal prefix of ASCII digits of a character list, with the rest. -/
def digitRun : List Char → List Char × List Char
  | [] => ([], [])
  | c :: t =>
      if c.isDigit then
        let p := digitRun t
        (c :: p.1, p.2)
      else ([], c :: t)

/-- Numeric value of a list of ASCII digits. -/
def digitsToNat : List Char → Nat :=
  List.foldl (fun n c => n * 10 + (c.toNat - 48)) 0

/-- Gregorian leap-year rule used by Python's datetime module. -/
def isLeapYear (y : Nat) : Bool :=
  y % 4 == 0 && (y % 100 != 0 || y % 400 == 0)

/-- Length of a month, as enforced by the datetime.date constructor. -/
def daysInMonth (y m : Nat) : Nat :=
  if m = 2 then (if isLeapYear y then 29 else 28)
  else if m = 4 ∨ m = 6 ∨ m = 9 ∨ m = 11 then 30
  else 31

/-- Validation performed by the datetime.date constructor (MINYEAR 1,
MAXYEAR 9999). -/
def validYmd (y m d : Nat) : Bool :=
  decide (1 ≤ y) && decide (y ≤ 9999) && decide (1 ≤ m) && decide (m ≤ 12) &&
    decide (1 ≤ d) && decide (d ≤ daysInMonth y m)

/-- Model of datetime.datetime.strptime(s, "%Y-%m-%d").  CPython compiles
the pattern to the regex of exactly four digits for the year, a dash, a
one-or-two-digit month restricted by the regex to values 1 to 12, a dash,
and a day that is one or two digits with value 1 to 31 or a space followed
by one digit 1 to 9; the match must consume the whole string (otherwise
"unconverted data remains") and the date constructor then validates the
calendar values.  Digits are modelled as ASCII digits. -/
def strptimeYmd (s : String) : Option (Nat × Nat × Nat) :=
  match s.toList with
  | y1 :: y2 :: y3 :: y4 :: '-' :: rest =>
    if ([y1, y2, y3, y4].all Char.isDigit) then
      let y := digitsToNat [y1, y2, y3, y4]
      let p2 := digitRun rest
      if p2.1 ≠ [] ∧ p2.1.length ≤ 2 ∧ 1 ≤ digitsToNat p2.1 ∧ digitsToNat p2.1 ≤ 12 then
        let m := digitsToNat p2.1
        match p2.2 with
        | '-' :: r4 =>
          (match r4 with
           | [] => none
           | dc1 :: rest1 =>
             if dc1 = ' ' then
               (match rest1 with
                | [dc] =>
                  if dc.isDigit ∧ dc ≠ '0' ∧ validYmd y m (dc.toNat - 48) then
                    some (y, m, dc.toNat - 48)
                  else none
                | _ => none)
             else
               let p3 := digitRun r4
               if p3.1 ≠ [] ∧ p3.1.length ≤ 2 ∧ 1 ≤ digitsToNat p3.1 ∧
                  digitsToNat p3.1 ≤ 31 ∧ p3.2 = [] ∧ validYmd y m (digitsToNat p3.1) then
                 some (y, m, digitsToNat p3.1)
               else none)
        | _ => none
      else none
    else none
  | _ => none

/-- A parsed datetime.datetime: calendar fields plus an optional UTC offset
in microseconds (none = a naive datetime). -/
structure PyDateTime where
  year : Nat
  month : Nat
  day : Nat
  hour : Nat
  minute : Nat
  second : Nat
  usec : Nat
  tzMicro : Option Int
deriving DecidableEq, Repr

/-- Two ASCII digits, returning their value and the rest. -/
def parse2 : List Char → Option (Nat × List Char)
  | a :: b :: t =>
      if a.isDigit ∧ b.isDigit
      then some ((a.toNat - 48) * 10 + (b.toNat - 48), t)
      else none
  | _ => none

/-- CPython's parse of an HH[:MM[:SS[.fff[fff]]]] component list (used both
for the time of day and for a UTC offset), without range validation. -/
def parseHmsFF (cs : List Char) : Option (Nat × Nat × Nat × Nat) := do
  let (h, r1) ← parse2 cs
  match r1 with
  | [] => some (h, 0, 0, 0)
  | ':' :: r2 => do
      let (m, r3) ← parse2 r2
      match r3 with
      | [] => some (h, m, 0, 0)
      | ':' :: r4 => do
          let (s, r5) ← parse2 r4
          match r5 with
          | [] => some (h, m, s, 0)
          | '.' :: r6 =>
              if r6.length = 3 ∧ r6.all Char.isDigit then
                some (h, m, s, digitsToNat r6 * 1000)
              else if r6.length = 6 ∧ r6.all Char.isDigit then
                some (h, m, s, digitsToNat r6)
              else none
          | _ => none
      | _ => none
  | _ => none

/-- Split a character list at the first occurrence of c. -/
def splitAtFirst (c : Char) : List Char → Option (List Char × List Char)
  | [] => none
  | x :: t =>
      if x = c then some ([], t)
      else (splitAtFirst c t).map (fun p => (x :: p.1, p.2))

/-- Parse of the UTC-offset part of an isoformat string: the offset text must
have length 5, 8 or 15 (HH:MM, HH:MM:SS or HH:MM:SS.ffffff) and the timezone
constructor requires the offset to be strictly below 24 hours; the component
values themselves are not range-checked (timedelta normalizes them). -/
def parseTzOffset (zs : List Char) : Option Nat := do
  if zs.length = 5 ∨ zs.length = 8 ∨ zs.length = 15 then
    let (h, m, s, us) ← parseHmsFF zs
    let micro := h * 3600000000 + m * 60000000 + s * 1000000 + us
    if micro < 86400000000 then some micro else none
  else none

/-- Model of datetime.datetime.fromisoformat(s): a YYYY-MM-DD date, then
optionally one separator character (any character) followed by a time
HH[:MM[:SS[.fff[fff]]]], then optionally a UTC offset introduced by the first
"-" (else the first "+") of the time text.  The datetime constructor finally
range-checks the time of day.  This is the documented CPython grammar for this
function; the program's sort key replaces a literal "Z" with "+00:00" before
calling it. -/
def fromisoformat (s : String) : Option PyDateTime :=
  match s.toList with
  | y1 :: y2 :: y3 :: y4 :: '-' :: m1 :: m2 :: '-' :: d1 :: d2 :: rest =>
    if ([y1, y2, y3, y4, m1, m2, d1, d2].all Char.isDigit) then
      let y := digitsToNat [y1, y2, y3, y4]
      let m := digitsToNat [m1, m2]
      let d := digitsToNat [d1, d2]
      if validYmd y m d then
        match rest with
        | [] => some ⟨y, m, d, 0, 0, 0, 0, none⟩
        | _sep :: tcs => do
            let (timecs, tz) ←
              match splitAtFirst '-' tcs with
              | some (ts, zs) => do
                  let off ← parseTzOffset zs
                  pure (ts, some (-(off : Int)))
              | none =>
                match splitAtFirst '+' tcs with
                | some (ts, zs) => do
                    let off ← parseTzOffset zs
                    pure (ts, some ((off : Int)))
                | none => pure (tcs, (none : Option Int))
            let (h, mi, sec, us) ← parseHmsFF timecs
            if h ≤ 23 ∧ mi ≤ 59 ∧ sec ≤ 59 then
              some ⟨y, m, d, h, mi, sec, us, tz⟩
            else none
      else none
    else none
  | _ => none

/-- Day number of a proleptic-Gregorian date (years from 1), the standard
era-based day count; only differences of day numbers matter. -/
def daysFromCivil (y m d : Nat) : Nat :=
  let y' := if m ≤ 2 then y - 1 else y
  let era := y' / 400
  let yoe := y' % 400
  let mp := if m ≤ 2 then m + 9 else m - 3
  let doy := (153 * mp + 2) / 5 + (d - 1)
  let doe := yoe * 365 + yoe / 4 - yoe / 100 + doy
  era * 146097 + doe

/-- Microseconds of a datetime ignoring its offset. -/
def PyDateTime.naiveMicros (t : PyDateTime) : Nat :=
  daysFromCivil t.year t.month t.day * 86400000000 +
    t.hour * 3600000000 + t.minute * 60000000 + t.second * 1000000 + t.usec

/-- Comparison key of a datetime: naive datetimes compare by their calendar
fields, aware datetimes by their UTC instant; Python raises on a comparison
between a naive and an aware datetime, so the Bool component records which
kind the key is. -/
def PyDateTime.sortKey (t : PyDateTime) : Bool × Int :=
  match t.tzMicro with
  | some off => (true, (t.naiveMicros : Int) - off)
  | none => (false, (t.naiveMicros : Int))

/-- Monadic map over Option, specialised and structural: the whole list maps
successfully or the first failure aborts (a raised exception). -/
def optMapM {α β : Type} (f : α → Option β) : List α → Option (List β)
  | [] => some []
  | x :: t => do
      let b ← f x
      let bs ← optMapM f t
      pure (b :: bs)

/-- Insert an element into a list before the first entry it compares
less-or-equal to (the insertion step of a stable insertion sort). -/
def insertLe {α : Type} (le : α → α → Bool) (a : α) : List α → List α
  | [] => [a]
  | b :: l => if le a b then a :: b :: l else b :: insertLe le a l

/-- Stable insertion sort.  Python's sorted() is a stable ascending sort; any
stable sort produces this same output, so this models sorted() faithfully. -/
def isortLe {α : Type} (le : α → α → Bool) : List α → List α
  | [] => []
  | a :: l => insertLe le a (isortLe le l)

/-- One reading tuple (dt, wbgt, heat_stress) as appended by the grouping
loop: the record's datetime value, the reading's wbgt value and its
heatStress value (any of them may be Json.null). -/
structure Reading where
  dt : Json
  wbgt : Json
  heat : Json
deriving DecidableEq, Repr

/-- The sort key of one reading, as computed by the lambda
x : datetime.datetime.fromisoformat(x[0].replace("Z", "+00:00")): the
datetime value must be a string (otherwise .replace raises), it must parse,
and the parsed datetime's comparison key is used.  none models the raised
exception. -/
def sortKeyOf (r : Reading) : Option (Bool × Int) :=
  match r.dt with
  | .str s =>
      match fromisoformat (pyReplaceZ s) with
      | some t => some t.sortKey
      | none => none
  | _ => none

/-- Boolean comparison of two readings by their datetime keys (total whenever
both keys exist and have the same awareness). -/
def dtLeB (x y : Reading) : Bool :=
  match sortKeyOf x, sortKeyOf y with
  | some a, some b => decide (a.2 ≤ b.2)
  | _, _ => true

/-- Model of sorted(readings, key=...): sorted() computes every element's key
(so any unparsable datetime raises), comparisons between a naive and an
aware datetime raise TypeError (none), and otherwise the result is the
stable ascending sort. -/
def sortReadings (rs : List Reading) : Option (List Reading) := do
  let ks ← optMapM sortKeyOf rs
  if ks.all (fun k => k.1 == true) || ks.all (fun k => k.1 == false) then
    some (isortLe dtLeB rs)
  else none

/-- Grouped station data: station key to list of readings, in key insertion
order (a Python dict preserves insertion order; values grow by append). -/
abbrev GroupList := List (Json × List Reading)

/-- station_data[town].append(reading) on a defaultdict(list): append to the
existing group of that key, else add a new group at the end. -/
def appendGroup (gs : GroupList) (town : Json) (r : Reading) : GroupList :=
  match gs with
  | [] => [(town, [r])]
  | (k, l) :: t =>
      if k = town then (k, l ++ [r]) :: t
      else (k, l) :: appendGroup t town r

/-- Folding a stream of (town, reading) pairs into a defaultdict(list). -/
def groupPairs (ps : List (Json × Reading)) : GroupList :=
  ps.foldl (fun gs p => appendGroup gs p.1 p.2) []

/-- Python station_data[k] / `k in station_data`: dict lookup by equality. -/
def lookupGroup (gs : GroupList) (k : Json) : Option (List Reading) :=
  (gs.find? (fun g => decide (g.1 = k))).map (fun g => g.2)

/-- The body of the inner reading loop of group_wbgt_by_station (and of the
identical loop in format_wbgt_by_station_split):

    station = rd.get("station", \x7b\x7d)
    town = station.get("townCenter", station.get("name", station.get("id")))
    wbgt = rd.get("wbgt")
    heat_stress = rd.get("heatStress")

producing the pair (town, (dt, wbgt, heat_stress)); none models a raised
exception (rd or station not a dict). -/
def extractReading (dt : Json) (rd : Json) : Option (Json × Reading) := do
  let station ← rd.get "station" (Json.objL [])
  let idv ← station.get1 "id"
  let namev ← station.get "name" idv
  let town ← station.get "townCenter" namev
  let wbgt ← rd.get1 "wbgt"
  let heat ← rd.get1 "heatStress"
  pure (town, ⟨dt, wbgt, heat⟩)

/-- One iteration of the outer record loop: read the record's datetime and
its nested reading list and extract every (town, reading) pair in order. -/
def recordPairs (record : Json) : Option (List (Json × Reading)) := do
  let dt ← record.get1 "datetime"
  let item ← record.get "item" (Json.objL [])
  let readingsJ ← item.get "readings" (Json.arrL [])
  let rds ← readingsJ.iter
  optMapM (extractReading dt) rds

/-- The grouping loop of group_wbgt_by_station over an already extracted
record list.  The Python loop interleaves pair extraction with the
defaultdict append; since extraction has no side effects and the append
never raises, extracting the full pair stream first and then folding it is
observationally identical (any raised exception aborts the whole loop in
both presentations). -/
def group_records (recs : List Json) : Option GroupList := do
  let pss ← optMapM recordPairs recs
  pure (groupPairs pss.flatten)

/-- group_wbgt_by_station(data) of the interactive program variant:
records = data.get("data", \x7b\x7d).get("records", []), then the grouping
loop; an empty or missing path yields an empty grouping, not an error. -/
def group_wbgt_by_station (data : Json) : Option GroupList := do
  let d ← data.get "data" (Json.objL [])
  let recordsJ ← d.get "records" (Json.arrL [])
  let recs ← recordsJ.iter
  group_records recs

/-- One formatted reading line:
"  \x7bdt\x7d  WBGT: \x7bwbgt\x7d  HeatStress: \x7bheat_stress\x7d". -/
def fmtLine (r : Reading) : String :=
  "  " ++ r.dt.pyStr ++ "  WBGT: " ++ r.wbgt.pyStr ++ "  HeatStress: " ++ r.heat.pyStr

/-- format_station_data(station, readings): the header line
"Station: \x7bstation\x7d", the time-sorted readings one line each, joined
with newlines. -/
def format_station_data (station : Json) (readings : List Reading) : Option String := do
  let rs ← sortReadings readings
  pure (String.intercalate "\n" (("Station: " ++ station.pyStr) :: rs.map fmtLine))

/-- sorted(station_data.keys()): Python sorts the station keys with <.
String keys compare code-point lexicographically; a list of at most one key
needs no comparison and sorts as-is for any key type; comparing None (or a
dict) with anything raises TypeError, modelled as none.  (A payload in which
two or more station labels are all numbers would compare numerically in
Python; no claim involves such payloads and they are outside this model.) -/
def sortedKeys (gs : GroupList) : Option (List Json) :=
  let ks := gs.map (fun g => g.1)
  if ks.length ≤ 1 then some ks
  else if ks.all (fun k => match k with | .str _ => true | _ => false) then
    some (isortLe
      (fun a b =>
        match a, b with
        | .str x, .str y => pyStrLe x y
        | _, _ => true) ks)
  else none

/-- format_wbgt_by_station_split(data) of the all-stations program variant:
short-circuits on a falsy records value, then groups (the same loop as
group_wbgt_by_station) and renders one block per station key in sorted key
order; each block is built by the same code as format_station_data.  The
lookup default is never used: every sorted key is a key of the grouping. -/
def format_wbgt_by_station_split (data : Json) : Option (List String) := do
  let d ← data.get "data" (Json.objL [])
  let recordsJ ← d.get "records" (Json.arrL [])
  if ¬ recordsJ.truthy then pure ["No records found."]
  else do
    let recs ← recordsJ.iter
    let station_data ← group_records recs
    let ks ← sortedKeys station_data
    optMapM (fun k => format_station_data k ((lookupGroup station_data k).getD [])) ks

/-- Grouping followed by the per-station timestamp sort: the QueryResult
contents a later station choice is formatted from. -/
def sortStationGroups : GroupList → Option GroupList
  | [] => some []
  | (k, l) :: t => do
      let out ← sortReadings l
      let rest ← sortStationGroups t
      pure ((k, out) :: rest)

/-- The per-station, time-ordered view of a record list (grouping step
followed by each group's sort). -/
def queryOfRecords (recs : List Json) : Option GroupList := do
  let gs ← group_records recs
  sortStationGroups gs

/-- An outgoing reply of the controller.  caught stands for the reply of the
`except Exception` branch whose text interpolates the exception value. -/
inductive Reply where
  | msg (text : String)
  | choices (text : String) (stations : List Json)
  | caught
deriving DecidableEq, Repr

/-- The per-user conversation state: context.user_data, which holds at most
the "station_data" entry. -/
structure Ctx where
  stationData : Option GroupList
deriving DecidableEq, Repr

def invalidDateMsg : String :=
  "Invalid date format. Use YYYY-MM-DD or YYYY-MM-DDTHH:MM:SS"

def noRecordsMsg : String := "No records found."

def chooseMsg : String := "Choose a station:"

def staleMsg : String := "Station data not found. Please send the date again."

def fetchErrorText (e : String) : String := "Error fetching WBGT data: " ++ e

/-- Python str.strip() with no argument: remove leading and trailing
whitespace (modelled for the ASCII whitespace characters). -/
def pyIsSpace (c : Char) : Bool :=
  c == ' ' || c == '\t' || c == '\n' || c == '\r' || c == '\x0b' || c == '\x0c'

def pyStrip (s : String) : String :=
  ⟨((s.toList.dropWhile pyIsSpace).reverse.dropWhile pyIsSpace).reverse⟩

/-- The date-input validation prefix of handle_date: a string containing a
literal "T" must be accepted by fromisoformat, any other string must match
strptime's "%Y-%m-%d"; ValueError means invalid. -/
def validDateInput (s : String) : Bool :=
  if s.toList.contains 'T' then (fromisoformat s).isSome else (strptimeYmd s).isSome

/-- handle_date of the interactive program variant.  The network fetch is an
oracle argument (Except: HTTP/transport error text, or the parsed JSON
body).  The result is (replies sent, new user state, the date string passed
to fetch_wbgt if it was called).  Note that the code stores
context.user_data["station_data"] before building the keyboard, so the
session is replaced even if sorting the keys raises. -/
def handle_date (text : String) (fetched : Except String Json) (ctx : Ctx) :
    List Reply × Ctx × Option String :=
  let date_input := pyStrip text
  if ¬ validDateInput date_input then ([.msg invalidDateMsg], ctx, none)
  else
    match fetched with
    | .error e => ([.msg (fetchErrorText e)], ctx, some date_input)
    | .ok data =>
      match group_wbgt_by_station data with
      | none => ([.caught], ctx, some date_input)
      | some station_data =>
        if station_data.isEmpty then ([.msg noRecordsMsg], ctx, some date_input)
        else
          let ctx' : Ctx := ⟨some station_data⟩
          match sortedKeys station_data with
          | none => ([.caught], ctx', some date_input)
          | some ks => ([.choices chooseMsg ks], ctx', some date_input)

/-- button_handler of the interactive program variant: query.data is the
chosen station key (always a string), looked up in
context.user_data.get("station_data", \x7b\x7d).  The first component none
models an uncaught exception inside the handler (no reply is sent); the
user state is never written by this handler. -/
def button_handler (choiceId : String) (ctx : Ctx) : Option Reply × Ctx :=
  let station_data := ctx.stationData.getD []
  match lookupGroup station_data (.str choiceId) with
  | some rs =>
      match format_station_data (.str choiceId) rs with
      | some t => (some (.msg t), ctx)
      | none => (none, ctx)
  | none => (some (.msg staleMsg), ctx)

/-- Boolean less-or-equal induced by an integer key. -/
def keyLe {α : Type} (k : α → Int) (x y : α) : Bool := decide (k x ≤ k y)

/-- The integer sort key of a reading, defaulted (only used on readings whose
key exists). -/
def keyValD (r : Reading) : Int := ((sortKeyOf r).getD (false, 0)).2

/-- The awareness bit of a reading's key, defaulted. -/
def keyAwD (r : Reading) : Bool := ((sortKeyOf r).getD (false, 0)).1

/-- The readings a stream of (town, reading) pairs contributes to key K, in
stream order. -/
def filteredFor (ps : List (Json × Reading)) (K : Json) : List Reading :=
  (ps.filter (fun p => decide (p.1 = K))).map Prod.snd

/-- The (town, reading) pair stream of a record list, in encounter order. -/
def streamOf (recs : List Json) : List (Json × Reading) :=
  recs.flatMap (fun r => (recordPairs r).getD [])

/-- The zero-padded rendering "YYYY-MM-DD" of numeric year, month and day. -/
def padYmdChars (y m d : Nat) : List Char :=
  [Nat.digitChar (y / 1000 % 10), Nat.digitChar (y / 100 % 10),
   Nat.digitChar (y / 10 % 10), Nat.digitChar (y % 10), '-',
   Nat.digitChar (m / 10 % 10), Nat.digitChar (m % 10), '-',
   Nat.digitChar (d / 10 % 10), Nat.digitChar (d % 10)]

def padYmd (y m d : Nat) : String := ⟨padYmdChars y m d⟩

def c7FirstPayload : Json := Json.objL [("data", Json.objL [("records", Json.arrL [
  Json.objL [("datetime", .str "2024-06-01T08:00:00Z"),
    ("item", Json.objL [("readings", Json.arrL [
      Json.objL [("station", Json.objL [("name", .str "Sentosa")]),
                 ("wbgt", .num "30.1"), ("heatStress", .str "High")]])])]])])]

def c7SecondPayload : Json := Json.objL [("data", Json.objL [("records", Json.arrL [
  Json.objL [("datetime", .str "2024-06-02T08:00:00Z"),
    ("item", Json.objL [("readings", Json.arrL [
      Json.objL [("station", Json.objL [("name", .str "Changi")]),
                 ("wbgt", .num "28.5"), ("heatStress", .str "Moderate")]])])]])])]

def c7SecondGroups : GroupList :=
  [(Json.str "Changi", [⟨.str "2024-06-02T08:00:00Z", .num "28.5", .str "Moderate"⟩])]

def c9Readings : List Reading :=
  [⟨.str "2024-06-01T07:00:00Z", .num "27.0", .str "Low"⟩,
   ⟨.str "2024-06-01T08:00:00Z", .null, .null⟩]

def c10Payload : Json := Json.objL [("data", Json.objL [("records", Json.arrL [
  Json.objL [("datetime", .str "2024-06-01T08:00:00Z"),
    ("item", Json.objL [("readings", Json.arrL [
      Json.objL [("wbgt", .num "28.5"), ("heatStress", .str "Moderate")]])])]])])]

def degenerateRecordsPayload : Json :=
  Json.objL [("data", Json.objL [("records", Json.arrL [Json.objL []])])]

/-- StationKey resolution by key presence, the fallback the code actually
implements (this follows the amended wording of claim C1): the townCenter
value if that key is present (even when its value is null), else the name
value if present, else the id value, else null. -/
def resolveStationKey (sf : List (String × Json)) : Json :=
  match lookupField sf "townCenter" with
  | some v => v
  | none =>
    match lookupField sf "name" with
    | some v => v
    | none => (lookupField sf "id").getD .null

def c1Payload : Json := Json.objL [("data", Json.objL [("records", Json.arrL [
  Json.objL [("datetime", .str "2024-06-01T08:00:00"),
    ("item", Json.objL [("readings", Json.arrL [
      Json.objL [("station", Json.objL [("townCenter", Json.null), ("name", .str "Changi")]),
                 ("wbgt", .num "28.5"), ("heatStress", .str "Moderate")]])])]])])]

/-- The claim's reading of a "valid YYYY-MM-DD string": exactly ten
characters, four-digit year, two-digit month 01 to 12, two-digit day 01 to
31 (the sources' parenthetical, with no calendar validation). -/
def specYmdPattern (s : String) : Bool :=
  match s.toList with
  | [a, b, c, d, '-', e, f, '-', g, h] =>
      ([a, b, c, d, e, f, g, h].all Char.isDigit) &&
      decide (1 ≤ digitsToNat [e, f]) && decide (digitsToNat [e, f] ≤ 12) &&
      decide (1 ≤ digitsToNat [g, h]) && decide (digitsToNat [g, h] ≤ 31)
  | _ => false

def c4Readings : List Reading :=
  [⟨.str "2024-06-01T08:00:00Z", .num "28.5", .str "Moderate"⟩,
   ⟨.str "2024-06-01T07:00:00Z", .num "27.0", .str "Low"⟩,
   ⟨.str "2024-06-01T07:00:00+00:00", .num "27.5", .str "Low"⟩]

def c4Sorted : List Reading :=
  [⟨.str "2024-06-01T07:00:00Z", .num "27.0", .str "Low"⟩,
   ⟨.str "2024-06-01T07:00:00+00:00", .num "27.5", .str "Low"⟩,
   ⟨.str "2024-06-01T08:00:00Z", .num "28.5", .str "Moderate"⟩]

def c3rec (w : String) : Json := Json.objL [("datetime", .str "2024-06-01T08:00:00"),
  ("item", Json.objL [("readings", Json.arrL [
    Json.objL [("station", Json.objL [("name", .str "Changi")]),
               ("wbgt", .num w), ("heatStress", .null)]])])]

def c3recB (dt station w : String) : Json := Json.objL [("datetime", .str dt),
  ("item", Json.objL [("readings", Json.arrL [
    Json.objL [("station", Json.objL [("name", .str station)]),
               ("wbgt", .num w), ("heatStress", .null)]])])]

def c3q1 : GroupList :=
  [(Json.str "Changi", [⟨.str "2024-06-01T07:00:00", .num "27.0", .null⟩,
                        ⟨.str "2024-06-01T08:00:00", .num "28.5", .null⟩]),
   (Json.str "Sentosa", [⟨.str "2024-06-01T09:00:00", .num "30.1", .null⟩])]

theorem insertLe_perm {α : Type} (le : α → α → Bool) (a : α) (m : List α) :
    (insertLe le a m).Perm (a :: m) := by
  induction m with
  | nil => simp [insertLe]
  | cons b t ih =>
    simp only [insertLe]
    split
    · exact .refl _
    · exact (ih.cons b).trans (.swap a b t)

theorem isortLe_perm {α : Type} (le : α → α → Bool) (l : List α) :
    (isortLe le l).Perm l := by
  induction l with
  | nil => simp [isortLe]
  | cons a t ih => exact (insertLe_perm le a (isortLe le t)).trans (ih.cons a)

theorem mem_isortLe {α : Type} {le : α → α → Bool} {l : List α} {x : α} :
    x ∈ isortLe le l ↔ x ∈ l :=
  (isortLe_perm le l).mem_iff

theorem insertLe_congr {α : Type} {le₁ le₂ : α → α → Bool} (a : α) (m : List α)
    (h : ∀ b ∈ m, le₁ a b = le₂ a b) : insertLe le₁ a m = insertLe le₂ a m := by
  induction m with
  | nil => rfl
  | cons b t ih =>
    simp only [insertLe]
    rw [h b (List.mem_cons_self b t)]
    cases hle : le₂ a b <;>
      simp [ih (fun c hc => h c (List.mem_cons_of_mem b hc))]

theorem isortLe_congr {α : Type} {le₁ le₂ : α → α → Bool} (l : List α)
    (h : ∀ x ∈ l, ∀ y ∈ l, le₁ x y = le₂ x y) : isortLe le₁ l = isortLe le₂ l := by
  induction l with
  | nil => rfl
  | cons a t ih =>
    simp only [isortLe]
    rw [ih (fun x hx y hy =>
      h x (List.mem_cons_of_mem a hx) y (List.mem_cons_of_mem a hy))]
    exact insertLe_congr a (isortLe le₂ t) (fun b hb =>
      h a (List.mem_cons_self a t) b
        (List.mem_cons_of_mem a (mem_isortLe.mp hb)))

theorem insertLe_key_sorted {α : Type} (k : α → Int) (a : α) (m : List α)
    (hm : m.Pairwise (fun x y => k x ≤ k y)) :
    (insertLe (keyLe k) a m).Pairwise (fun x y => k x ≤ k y) := by
  induction m with
  | nil => simp [insertLe]
  | cons b t ih =>
    rcases List.pairwise_cons.mp hm with ⟨hb, ht⟩
    simp only [insertLe, keyLe]
    split
    · rename_i hab
      have hab' : k a ≤ k b := of_decide_eq_true hab
      refine List.pairwise_cons.mpr ⟨?_, hm⟩
      intro c hc
      rcases List.mem_cons.mp hc with rfl | hc
      · exact hab'
      · exact le_trans hab' (hb c hc)
    · rename_i hab
      have hba : k b ≤ k a := le_of_not_le (fun hc => hab (decide_eq_true hc))
      refine List.pairwise_cons.mpr ⟨?_, ih ht⟩
      intro c hc
      rcases List.mem_cons.mp ((insertLe_perm (keyLe k) a t).mem_iff.mp hc) with rfl | hc
      · exact hba
      · exact hb c hc

theorem isortLe_key_sorted {α : Type} (k : α → Int) (l : List α) :
    (isortLe (keyLe k) l).Pairwise (fun x y => k x ≤ k y) := by
  induction l with
  | nil => simp [isortLe]
  | cons a t ih => exact insertLe_key_sorted k a (isortLe (keyLe k) t) ih

theorem insertLe_key_filter {α : Type} (k : α → Int) (a : α) (m : List α) (v : Int) :
    (insertLe (keyLe k) a m).filter (fun x => k x == v) =
      if k a = v then a :: m.filter (fun x => k x == v)
      else m.filter (fun x => k x == v) := by
  induction m with
  | nil => by_cases h : k a = v <;> simp [insertLe, h]
  | cons b t ih =>
    simp only [insertLe, keyLe]
    split
    · by_cases h : k a = v <;> simp [List.filter_cons, h]
    · rename_i hab
      have hba : k b < k a := by
        by_contra hc
        exact hab (decide_eq_true (le_of_not_lt hc))
      by_cases h : k a = v
      · have hbv : (k b == v) = false := by
          simp only [beq_eq_false_iff_ne, ne_eq]
          omega
        simp [List.filter_cons, hbv, ih, h]
      · simp only [List.filter_cons, ih, if_neg h]

theorem isortLe_key_filter {α : Type} (k : α → Int) (l : List α) (v : Int) :
    (isortLe (keyLe k) l).filter (fun x => k x == v) =
      l.filter (fun x => k x == v) := by
  induction l with
  | nil => rfl
  | cons a t ih =>
    simp only [isortLe]
    rw [insertLe_key_filter]
    by_cases h : k a = v
    · simp [List.filter_cons, h, ih]
    · simp [List.filter_cons, h, ih]

theorem insertLe_key_of_le {α : Type} (k : α → Int) (a : α) (m : List α)
    (h : ∀ b ∈ m, k a ≤ k b) : insertLe (keyLe k) a m = a :: m := by
  cases m with
  | nil => rfl
  | cons b t =>
    simp [insertLe, keyLe, h b (List.mem_cons_self b t)]

theorem isortLe_key_sorted_id {α : Type} (k : α → Int) (l : List α)
    (hl : l.Pairwise (fun x y => k x ≤ k y)) : isortLe (keyLe k) l = l := by
  induction l with
  | nil => rfl
  | cons a t ih =>
    rcases List.pairwise_cons.mp hl with ⟨ha, ht⟩
    simp only [isortLe]
    rw [ih ht]
    exact insertLe_key_of_le k a t ha

theorem eq_of_perm_key_sorted {α : Type} (k : α → Int) :
    ∀ (l₁ l₂ : List α), l₁.Perm l₂ →
      l₁.Pairwise (fun x y => k x ≤ k y) →
      l₂.Pairwise (fun x y => k x ≤ k y) →
      l₁.Pairwise (fun x y => k x ≠ k y) → l₁ = l₂
  | [], [], _, _, _, _ => rfl
  | [], b :: t, hp, _, _, _ => absurd (hp.mem_iff.mpr (List.mem_cons_self b t)) (by simp)
  | a :: t, [], hp, _, _, _ => absurd (hp.mem_iff.mp (List.mem_cons_self a t)) (by simp)
  | a :: t₁, b :: t₂, hp, h₁, h₂, hd => by
    rcases List.pairwise_cons.mp h₁ with ⟨ha1, ht1⟩
    rcases List.pairwise_cons.mp h₂ with ⟨hb2, ht2⟩
    rcases List.pairwise_cons.mp hd with ⟨hda, htd⟩
    have hab : a = b := by
      rcases List.mem_cons.mp (hp.mem_iff.mp (List.mem_cons_self a t₁)) with h | ha2
      · exact h
      · rcases List.mem_cons.mp (hp.mem_iff.mpr (List.mem_cons_self b t₂)) with h | hb1
        · exact h.symm
        · exact absurd (le_antisymm (ha1 b hb1) (hb2 a ha2)) (hda b hb1)
    subst hab
    have hpt : t₁.Perm t₂ := hp.cons_inv
    rw [eq_of_perm_key_sorted k t₁ t₂ hpt ht1 ht2 htd]

theorem optMapM_forall₂ {α β : Type} {f : α → Option β} :
    ∀ {l : List α} {bs : List β}, optMapM f l = some bs →
      List.Forall₂ (fun x b => f x = some b) l bs := by
  intro l
  induction l with
  | nil => intro bs h; cases h; exact .nil
  | cons x t ih =>
    intro bs h
    simp only [optMapM, Option.bind_eq_bind] at h
    cases hx : f x with
    | none => rw [hx] at h; simp at h
    | some b =>
      rw [hx] at h
      simp only [Option.some_bind] at h
      cases ht : optMapM f t with
      | none => rw [ht] at h; simp at h
      | some bt =>
        rw [ht] at h
        simp only [Option.some_bind, Option.pure_def, Option.some.injEq] at h
        subst h
        exact .cons hx (ih ht)

theorem optMapM_isSome_of_forall {α β : Type} {f : α → Option β} :
    ∀ {l : List α}, (∀ x ∈ l, (f x).isSome) → (optMapM f l).isSome := by
  intro l
  induction l with
  | nil => intro _; simp [optMapM]
  | cons x t ih =>
    intro h
    rcases Option.isSome_iff_exists.mp (h x (List.mem_cons_self x t)) with ⟨b, hb⟩
    rcases Option.isSome_iff_exists.mp
      (ih (fun y hy => h y (List.mem_cons_of_mem x hy))) with ⟨bt, hbt⟩
    simp [optMapM, hb, hbt]

theorem optMapM_isSome {α β : Type} {f : α → Option β} :
    ∀ {l : List α} {bs : List β}, optMapM f l = some bs → ∀ x ∈ l, (f x).isSome := by
  intro l
  induction l with
  | nil => intro bs _ x hx; cases hx
  | cons a t ih =>
    intro bs h x hx
    simp only [optMapM, Option.bind_eq_bind] at h
    cases ha : f a with
    | none => rw [ha] at h; simp at h
    | some b =>
      rw [ha] at h
      simp only [Option.some_bind] at h
      cases ht : optMapM f t with
      | none => rw [ht] at h; simp at h
      | some bt =>
        rcases List.mem_cons.mp hx with rfl | hx
        · simp [ha]
        · exact ih ht x hx

theorem dtLeB_eq_keyLe {x y : Reading} (hx : (sortKeyOf x).isSome)
    (hy : (sortKeyOf y).isSome) : dtLeB x y = keyLe keyValD x y := by
  rcases Option.isSome_iff_exists.mp hx with ⟨a, ha⟩
  rcases Option.isSome_iff_exists.mp hy with ⟨b, hb⟩
  simp [dtLeB, keyLe, keyValD, ha, hb]

theorem sortReadings_eq {rs out : List Reading} (h : sortReadings rs = some out) :
    out = isortLe (keyLe keyValD) rs := by
  simp only [sortReadings, Option.bind_eq_bind] at h
  cases hks : optMapM sortKeyOf rs with
  | none => rw [hks] at h; simp at h
  | some ks =>
    rw [hks] at h
    simp only [Option.some_bind] at h
    split at h
    · have hall := optMapM_isSome hks
      rw [← Option.some_inj.mp h]
      exact isortLe_congr rs (fun x hx y hy =>
        dtLeB_eq_keyLe (hall x hx) (hall y hy))
    · simp at h

theorem sortReadings_perm {rs out : List Reading} (h : sortReadings rs = some out) :
    out.Perm rs := by
  rw [sortReadings_eq h]
  exact isortLe_perm _ rs

theorem sortReadings_sorted {rs out : List Reading} (h : sortReadings rs = some out) :
    out.Pairwise (fun x y => keyValD x ≤ keyValD y) := by
  rw [sortReadings_eq h]
  exact isortLe_key_sorted keyValD rs

theorem sortReadings_stable {rs out : List Reading} (h : sortReadings rs = some out)
    (v : Int) :
    out.filter (fun x => keyValD x == v) = rs.filter (fun x => keyValD x == v) := by
  rw [sortReadings_eq h]
  exact isortLe_key_filter keyValD rs v

theorem sortReadings_keys_some {rs out : List Reading} (h : sortReadings rs = some out) :
    ∀ x ∈ rs, (sortKeyOf x).isSome := by
  simp only [sortReadings, Option.bind_eq_bind] at h
  cases hks : optMapM sortKeyOf rs with
  | none => rw [hks] at h; simp at h
  | some ks => exact optMapM_isSome hks

theorem optMapM_mem {α β : Type} {f : α → Option β} :
    ∀ {l : List α} {bs : List β}, optMapM f l = some bs →
      ∀ x ∈ l, ∃ b ∈ bs, f x = some b := by
  intro l
  induction l with
  | nil => intro bs _ x hx; cases hx
  | cons a t ih =>
    intro bs h x hx
    simp only [optMapM, Option.bind_eq_bind] at h
    cases ha : f a with
    | none => rw [ha] at h; simp at h
    | some b =>
      rw [ha] at h
      simp only [Option.some_bind] at h
      cases ht : optMapM f t with
      | none => rw [ht] at h; simp at h
      | some bt =>
        rw [ht] at h
        simp only [Option.some_bind, Option.pure_def, Option.some.injEq] at h
        subst h
        rcases List.mem_cons.mp hx with rfl | hx
        · exact ⟨b, List.mem_cons_self b bt, ha⟩
        · rcases ih ht x hx with ⟨c, hc, hfc⟩
          exact ⟨c, List.mem_cons_of_mem b hc, hfc⟩

theorem sortReadings_awareness {rs out : List Reading} (h : sortReadings rs = some out) :
    ∀ x ∈ rs, ∀ y ∈ rs, keyAwD x = keyAwD y := by
  simp only [sortReadings, Option.bind_eq_bind] at h
  cases hks : optMapM sortKeyOf rs with
  | none => rw [hks] at h; simp at h
  | some ks =>
    rw [hks] at h
    simp only [Option.some_bind] at h
    split at h
    · rename_i hguard
      intro x hx y hy
      rcases optMapM_mem hks x hx with ⟨a, ha, hfa⟩
      rcases optMapM_mem hks y hy with ⟨b, hb, hfb⟩
      have hxa : keyAwD x = a.1 := by simp [keyAwD, hfa]
      have hyb : keyAwD y = b.1 := by simp [keyAwD, hfb]
      rcases Bool.or_eq_true_iff.mp hguard with hall | hall
      · have h1 := List.all_eq_true.mp hall a ha
        have h2 := List.all_eq_true.mp hall b hb
        rw [hxa, hyb]
        simp only [beq_iff_eq] at h1 h2
        rw [h1, h2]
      · have h1 := List.all_eq_true.mp hall a ha
        have h2 := List.all_eq_true.mp hall b hb
        rw [hxa, hyb]
        simp only [beq_iff_eq] at h1 h2
        rw [h1, h2]
    · simp at h

theorem lookupGroup_appendGroup (gs : GroupList) (t : Json) (r : Reading) (K : Json) :
    lookupGroup (appendGroup gs t r) K =
      if t = K then some ((lookupGroup gs K).getD [] ++ [r])
      else lookupGroup gs K := by
  induction gs with
  | nil =>
    by_cases h : t = K <;>
      simp [appendGroup, lookupGroup, List.find?, h]
  | cons g gs ih =>
    obtain ⟨k, l⟩ := g
    simp only [appendGroup]
    by_cases hkt : k = t
    · subst hkt
      rw [if_pos rfl]
      by_cases hK : k = K
      · subst hK
        rw [if_pos rfl]
        simp only [lookupGroup]
        rw [List.find?_cons_of_pos _ (by simp), List.find?_cons_of_pos _ (by simp)]
        simp
      · rw [if_neg hK]
        simp only [lookupGroup]
        rw [List.find?_cons_of_neg _ (by simpa using hK),
          List.find?_cons_of_neg _ (by simpa using hK)]
    · rw [if_neg hkt]
      by_cases hK : k = K
      · subst hK
        have htK : ¬ t = k := fun h => hkt h.symm
        rw [if_neg htK]
        simp only [lookupGroup]
        rw [List.find?_cons_of_pos _ (by simp), List.find?_cons_of_pos _ (by simp)]
      · simp only [lookupGroup] at ih ⊢
        rw [List.find?_cons_of_neg _ (by simpa using hK),
          List.find?_cons_of_neg _ (by simpa using hK)]
        exact ih

theorem lookupGroup_foldl (K : Json) :
    ∀ (ps : List (Json × Reading)) (gs : GroupList),
      lookupGroup (ps.foldl (fun acc p => appendGroup acc p.1 p.2) gs) K =
        (match lookupGroup gs K with
         | some g => some (g ++ filteredFor ps K)
         | none => if (filteredFor ps K).isEmpty then none else some (filteredFor ps K)) := by
  intro ps
  induction ps with
  | nil =>
    intro gs
    cases h : lookupGroup gs K <;> simp [filteredFor, h]
  | cons p ps ih =>
    intro gs
    obtain ⟨t, r⟩ := p
    simp only [List.foldl_cons]
    rw [ih (appendGroup gs t r), lookupGroup_appendGroup]
    by_cases ht : t = K
    · have hf : filteredFor ((t, r) :: ps) K = r :: filteredFor ps K := by
        simp [filteredFor, List.filter_cons, ht]
      rw [if_pos ht]
      cases h : lookupGroup gs K <;> simp [h, hf]
    · have hf : filteredFor ((t, r) :: ps) K = filteredFor ps K := by
        simp [filteredFor, List.filter_cons, ht]
      rw [if_neg ht]
      cases h : lookupGroup gs K <;> simp [h, hf]

theorem lookupGroup_groupPairs (ps : List (Json × Reading)) (K : Json) :
    lookupGroup (groupPairs ps) K =
      if (filteredFor ps K).isEmpty then none else some (filteredFor ps K) := by
  have h := lookupGroup_foldl K ps []
  simpa [groupPairs, lookupGroup, List.find?] using h

theorem optMapM_flatten {α β : Type} {f : α → Option (List β)} :
    ∀ {l : List α} {bs : List (List β)}, optMapM f l = some bs →
      bs.flatten = l.flatMap (fun x => (f x).getD []) := by
  intro l
  induction l with
  | nil => intro bs h; cases h; rfl
  | cons a t ih =>
    intro bs h
    simp only [optMapM, Option.bind_eq_bind] at h
    cases ha : f a with
    | none => rw [ha] at h; simp at h
    | some b =>
      rw [ha] at h
      simp only [Option.some_bind] at h
      cases ht : optMapM f t with
      | none => rw [ht] at h; simp at h
      | some bt =>
        rw [ht] at h
        simp only [Option.some_bind, Option.pure_def, Option.some.injEq] at h
        subst h
        simp [List.flatten_cons, ih ht, ha]

theorem group_records_eq {recs : List Json} {gs : GroupList}
    (h : group_records recs = some gs) : gs = groupPairs (streamOf recs) := by
  simp only [group_records, Option.bind_eq_bind] at h
  cases hm : optMapM recordPairs recs with
  | none => rw [hm] at h; simp at h
  | some pss =>
    rw [hm] at h
    simp only [Option.some_bind, Option.pure_def, Option.some.injEq] at h
    subst h
    rw [optMapM_flatten hm]
    rfl

theorem streamOf_perm {recs₁ recs₂ : List Json} (hp : recs₁.Perm recs₂) :
    (streamOf recs₁).Perm (streamOf recs₂) :=
  hp.flatMap_right _

/-- Looking a key up after the per-group sort: the keys and their order are
unchanged and each group's readings are replaced by its sorted readings. -/
theorem sortStationGroups_lookup {gs q : GroupList}
    (h : sortStationGroups gs = some q) (K : Json) :
    (lookupGroup gs K = none → lookupGroup q K = none) ∧
    (∀ g, lookupGroup gs K = some g →
      ∃ out, sortReadings g = some out ∧ lookupGroup q K = some out) := by
  induction gs generalizing q with
  | nil =>
    cases h
    exact ⟨fun _ => rfl, fun g hg => by simp [lookupGroup, List.find?] at hg⟩
  | cons g gs ih =>
    obtain ⟨k, l⟩ := g
    simp only [sortStationGroups, Option.bind_eq_bind] at h
    cases hl : sortReadings l with
    | none => rw [hl] at h; simp at h
    | some lout =>
      rw [hl] at h
      simp only [Option.some_bind] at h
      cases ht : sortStationGroups gs with
      | none => rw [ht] at h; simp at h
      | some qt =>
        rw [ht] at h
        simp only [Option.some_bind, Option.pure_def, Option.some.injEq] at h
        subst h
        have iht := ih ht
        by_cases hK : k = K
        · constructor
          · intro hnone
            simp only [lookupGroup] at hnone
            rw [List.find?_cons_of_pos _ (by simpa using hK)] at hnone
            simp at hnone
          · intro g hg
            simp only [lookupGroup] at hg
            rw [List.find?_cons_of_pos _ (by simpa using hK)] at hg
            simp only [Option.map_some', Option.some.injEq] at hg
            subst hg
            refine ⟨lout, hl, ?_⟩
            simp only [lookupGroup]
            rw [List.find?_cons_of_pos _ (by simpa using hK)]
            rfl
        · constructor
          · intro hnone
            simp only [lookupGroup] at hnone ⊢
            rw [List.find?_cons_of_neg _ (by simpa using hK)] at hnone
            rw [List.find?_cons_of_neg _ (by simpa using hK)]
            exact (iht.1 hnone)
          · intro g hg
            simp only [lookupGroup] at hg ⊢
            rw [List.find?_cons_of_neg _ (by simpa using hK)] at hg
            rcases iht.2 g hg with ⟨out, hout, hq⟩
            refine ⟨out, hout, ?_⟩
            rw [List.find?_cons_of_neg _ (by simpa using hK)]
            exact hq

theorem digitChar_isDigit {v : Nat} (h : v < 10) : (Nat.digitChar v).isDigit = true := by
  interval_cases v <;> decide

theorem digitChar_toNat {v : Nat} (h : v < 10) : (Nat.digitChar v).toNat = v + 48 := by
  interval_cases v <;> decide

theorem digitChar_ne_space {v : Nat} (h : v < 10) : Nat.digitChar v ≠ ' ' := by
  interval_cases v <;> decide

theorem digitChar_not_T {v : Nat} (h : v < 10) : ('T' == Nat.digitChar v) = false := by
  interval_cases v <;> decide

theorem pyIsSpace_digitChar {v : Nat} (h : v < 10) : pyIsSpace (Nat.digitChar v) = false := by
  interval_cases v <;> decide

theorem daysInMonth_le_31 (y m : Nat) : daysInMonth y m ≤ 31 := by
  unfold daysInMonth
  split
  · split <;> omega
  · split <;> omega

theorem strptimeYmd_padYmd {y m d : Nat} (hy1 : 1 ≤ y) (hy : y ≤ 9999)
    (hm1 : 1 ≤ m) (hm : m ≤ 12) (hd1 : 1 ≤ d) (hd : d ≤ daysInMonth y m) :
    strptimeYmd (padYmd y m d) = some (y, m, d) := by
  have b1 : y / 1000 % 10 < 10 := Nat.mod_lt _ (by omega)
  have b2 : y / 100 % 10 < 10 := Nat.mod_lt _ (by omega)
  have b3 : y / 10 % 10 < 10 := Nat.mod_lt _ (by omega)
  have b4 : y % 10 < 10 := Nat.mod_lt _ (by omega)
  have b5 : m / 10 % 10 < 10 := Nat.mod_lt _ (by omega)
  have b6 : m % 10 < 10 := Nat.mod_lt _ (by omega)
  have b7 : d / 10 % 10 < 10 := Nat.mod_lt _ (by omega)
  have b8 : d % 10 < 10 := Nat.mod_lt _ (by omega)
  have hd31 : d ≤ 31 := le_trans hd (daysInMonth_le_31 y m)
  have hyv : digitsToNat [Nat.digitChar (y / 1000 % 10), Nat.digitChar (y / 100 % 10),
      Nat.digitChar (y / 10 % 10), Nat.digitChar (y % 10)] = y := by
    simp only [digitsToNat, List.foldl_cons, List.foldl_nil,
      digitChar_toNat b1, digitChar_toNat b2, digitChar_toNat b3, digitChar_toNat b4]
    omega
  have hmv : digitsToNat [Nat.digitChar (m / 10 % 10), Nat.digitChar (m % 10)] = m := by
    simp only [digitsToNat, List.foldl_cons, List.foldl_nil,
      digitChar_toNat b5, digitChar_toNat b6]
    omega
  have hdv : digitsToNat [Nat.digitChar (d / 10 % 10), Nat.digitChar (d % 10)] = d := by
    simp only [digitsToNat, List.foldl_cons, List.foldl_nil,
      digitChar_toNat b7, digitChar_toNat b8]
    omega
  have hvalid : validYmd y m d = true := by
    simp only [validYmd, Bool.and_eq_true, decide_eq_true_eq]
    exact ⟨⟨⟨⟨⟨hy1, hy⟩, hm1⟩, hm⟩, hd1⟩, hd⟩
  have hrun2 : digitRun [Nat.digitChar (m / 10 % 10), Nat.digitChar (m % 10), '-',
      Nat.digitChar (d / 10 % 10), Nat.digitChar (d % 10)] =
      ([Nat.digitChar (m / 10 % 10), Nat.digitChar (m % 10)],
       '-' :: [Nat.digitChar (d / 10 % 10), Nat.digitChar (d % 10)]) := by
    simp [digitRun, digitChar_isDigit b5, digitChar_isDigit b6]
  have hrun3 : digitRun [Nat.digitChar (d / 10 % 10), Nat.digitChar (d % 10)] =
      ([Nat.digitChar (d / 10 % 10), Nat.digitChar (d % 10)], []) := by
    simp [digitRun, digitChar_isDigit b7, digitChar_isDigit b8]
  have hall : [Nat.digitChar (y / 1000 % 10), Nat.digitChar (y / 100 % 10),
      Nat.digitChar (y / 10 % 10), Nat.digitChar (y % 10)].all Char.isDigit = true := by
    simp [digitChar_isDigit b1, digitChar_isDigit b2, digitChar_isDigit b3,
      digitChar_isDigit b4]
  show strptimeYmd ⟨padYmdChars y m d⟩ = some (y, m, d)
  simp only [strptimeYmd, padYmdChars, String.toList, hall, if_true, hrun2, hrun3]
  simp only [hyv, hmv, hdv]
  rw [if_pos ⟨by simp, by simp, hm1, hm⟩]
  rw [if_neg (digitChar_ne_space b7)]
  rw [if_pos ⟨by simp, by simp, hd1, hd31, trivial, hvalid⟩]

theorem padYmd_no_T (y m d : Nat) : ((padYmd y m d).toList.contains 'T') = false := by
  simp only [padYmd, padYmdChars, String.toList, List.contains, List.elem,
    digitChar_not_T (Nat.mod_lt _ (by omega : (0:Nat) < 10))]
  decide

theorem pyStrip_eq_self {l : List Char} (h : ∀ c ∈ l, pyIsSpace c = false) :
    pyStrip ⟨l⟩ = ⟨l⟩ := by
  have h1 : l.dropWhile pyIsSpace = l :=
    List.dropWhile_eq_self_iff.mpr (fun hl => by
      have hm := h _ (List.getElem_mem hl)
      simpa using hm)
  have h2 : l.reverse.dropWhile pyIsSpace = l.reverse :=
    List.dropWhile_eq_self_iff.mpr (fun hl => by
      have hlen : l.length - 1 < l.length := by simp at hl; omega
      have hm := h _ (List.getElem_mem hlen)
      simpa using hm)
  simp only [pyStrip, String.toList]
  rw [h1, h2, List.reverse_reverse]

theorem padYmdChars_no_space (y m d : Nat) :
    ∀ c ∈ padYmdChars y m d, pyIsSpace c = false := by
  intro c hc
  simp only [padYmdChars, List.mem_cons, List.not_mem_nil, or_false] at hc
  rcases hc with rfl | rfl | rfl | rfl | rfl | rfl | rfl | rfl | rfl | rfl
  · exact pyIsSpace_digitChar (Nat.mod_lt _ (by omega))
  · exact pyIsSpace_digitChar (Nat.mod_lt _ (by omega))
  · exact pyIsSpace_digitChar (Nat.mod_lt _ (by omega))
  · exact pyIsSpace_digitChar (Nat.mod_lt _ (by omega))
  · decide
  · exact pyIsSpace_digitChar (Nat.mod_lt _ (by omega))
  · exact pyIsSpace_digitChar (Nat.mod_lt _ (by omega))
  · decide
  · exact pyIsSpace_digitChar (Nat.mod_lt _ (by omega))
  · exact pyIsSpace_digitChar (Nat.mod_lt _ (by omega))

theorem pyStrip_padYmd (y m d : Nat) : pyStrip (padYmd y m d) = padYmd y m d :=
  pyStrip_eq_self (padYmdChars_no_space y m d)

theorem handle_date_invalid {text : String} (h : validDateInput (pyStrip text) = false)
    (f : Except String Json) (ctx : Ctx) :
    handle_date text f ctx = ([.msg invalidDateMsg], ctx, none) := by
  simp [handle_date, h]

theorem handle_date_fetchArg {text : String} (h : validDateInput (pyStrip text) = true)
    (f : Except String Json) (ctx : Ctx) :
    (handle_date text f ctx).2.2 = some (pyStrip text) := by
  cases f with
  | error e => simp [handle_date, h]
  | ok data =>
    simp only [handle_date, h, not_true, if_false]
    cases hg : group_wbgt_by_station data with
    | none => simp [hg]
    | some sd =>
      by_cases hsd : sd.isEmpty
      · simp [hg, hsd]
      · cases hks : sortedKeys sd with
        | none => simp [hg, hsd, hks]
        | some ks => simp [hg, hsd, hks]

/-- Claim C6: a choice event whose choice id is not a key of the stored
QueryResult — including when no QueryResult is stored at all — makes
button_handler emit the fixed stale-session message, leave the stored
session unchanged, and raise no error. -/
theorem C6_unknown_choice_stale (choiceId : String) (ctx : Ctx)
    (h : lookupGroup (ctx.stationData.getD []) (.str choiceId) = none) :
    button_handler choiceId ctx = (some (.msg staleMsg), ctx) := by
  simp [button_handler, h]

theorem C6_unknown_choice_stale_witness :
    (lookupGroup ((Ctx.mk (some [(Json.str "Changi",
        [⟨.str "2024-06-01T08:00:00Z", .num "28.5", .str "Moderate"⟩])])).stationData.getD [])
        (.str "Sentosa") = none) ∧
    button_handler "Sentosa" (Ctx.mk (some [(Json.str "Changi",
        [⟨.str "2024-06-01T08:00:00Z", .num "28.5", .str "Moderate"⟩])])) =
      (some (.msg staleMsg), Ctx.mk (some [(Json.str "Changi",
        [⟨.str "2024-06-01T08:00:00Z", .num "28.5", .str "Moderate"⟩])])) ∧
    button_handler "Changi" (Ctx.mk (none : Option GroupList)) =
      (some (.msg staleMsg), Ctx.mk (none : Option GroupList)) :=
  ⟨by decide,
   C6_unknown_choice_stale "Sentosa" _ (by decide),
   C6_unknown_choice_stale "Changi" ⟨none⟩ (by decide)⟩

/-- Claim C7: a successful text query whose grouping has at least one station
group stores exactly the new grouping as the user's session — overwriting
whatever was stored before, for every prior state — and a subsequent choice
event resolves against that new data only. -/
theorem C7_session_replaced (text : String) (data : Json) (sd : GroupList) (ctx : Ctx)
    (hv : validDateInput (pyStrip text) = true)
    (hg : group_wbgt_by_station data = some sd)
    (hne : sd ≠ []) :
    (handle_date text (.ok data) ctx).2.1 = ⟨some sd⟩ ∧
    ∀ choiceId, button_handler choiceId (handle_date text (.ok data) ctx).2.1 =
      button_handler choiceId ⟨some sd⟩ := by
  have hctx : (handle_date text (.ok data) ctx).2.1 = ⟨some sd⟩ := by
    simp only [handle_date, hv, not_true, if_false]
    cases hks : sortedKeys sd with
    | none => simp [hg, hks, List.isEmpty_iff, hne]
    | some ks => simp [hg, hks, List.isEmpty_iff, hne]
  exact ⟨hctx, fun c => by rw [hctx]⟩

theorem C7_session_replaced_witness :
    (validDateInput (pyStrip "2024-06-02") = true) ∧
    (group_wbgt_by_station c7SecondPayload = some c7SecondGroups) ∧
    (c7SecondGroups ≠ []) ∧
    (handle_date "2024-06-02" (.ok c7SecondPayload)
        (handle_date "2024-06-01" (.ok c7FirstPayload) ⟨none⟩).2.1).2.1 =
      ⟨some c7SecondGroups⟩ :=
  ⟨by decide, by decide, by decide,
   (C7_session_replaced "2024-06-02" c7SecondPayload c7SecondGroups
      (handle_date "2024-06-01" (.ok c7FirstPayload) ⟨none⟩).2.1
      (by decide) (by decide) (by decide)).1⟩

/-- Claim C8: a successfully parsed JSON object body in which the data field
is absent, or whose data field holds an object with no records field, is
treated as an empty record list: the grouping is empty and the all-stations
formatter reports that no records were found, with no error. -/
theorem C8_missing_path_degrades (bodyf : JObj) :
    (lookupField bodyf.toList "data" = none →
       group_wbgt_by_station (.obj bodyf) = some [] ∧
       format_wbgt_by_station_split (.obj bodyf) = some ["No records found."]) ∧
    (∀ df : JObj, lookupField bodyf.toList "data" = some (.obj df) →
       lookupField df.toList "records" = none →
       group_wbgt_by_station (.obj bodyf) = some [] ∧
       format_wbgt_by_station_split (.obj bodyf) = some ["No records found."]) := by
  constructor
  · intro h
    constructor
    · simp [group_wbgt_by_station, Json.get, h, Json.objL, JObj.ofList, Json.arrL,
        JArr.ofList, JObj.toList, JArr.toList, lookupField, Json.iter, group_records,
        optMapM, groupPairs]
    · simp [format_wbgt_by_station_split, Json.get, h, Json.objL, JObj.ofList,
        Json.arrL, JArr.ofList, JObj.toList, JArr.toList, lookupField, Json.truthy]
  · intro df h hr
    constructor
    · simp [group_wbgt_by_station, Json.get, h, hr, Json.objL, JObj.ofList, Json.arrL,
        JArr.ofList, JObj.toList, JArr.toList, lookupField, Json.iter, group_records,
        optMapM, groupPairs]
    · simp [format_wbgt_by_station_split, Json.get, h, hr, Json.objL, JObj.ofList,
        Json.arrL, JArr.ofList, JObj.toList, JArr.toList, lookupField, Json.truthy]

theorem C8_missing_path_degrades_witness :
    (lookupField (JObj.ofList [("other", Json.null)]).toList "data" = none ∧
     format_wbgt_by_station_split (.obj (JObj.ofList [("other", Json.null)])) =
       some ["No records found."]) ∧
    (lookupField (JObj.ofList [("data", Json.objL [("x", Json.null)])]).toList "data" =
       some (.obj (JObj.ofList [("x", Json.null)])) ∧
     lookupField (JObj.ofList [("x", Json.null)]).toList "records" = none ∧
     group_wbgt_by_station (.obj (JObj.ofList [("data", Json.objL [("x", Json.null)])])) =
       some []) :=
  ⟨⟨by decide, ((C8_missing_path_degrades (JObj.ofList [("other", Json.null)])).1
      (by decide)).2⟩,
   ⟨by decide, by decide,
    ((C8_missing_path_degrades (JObj.ofList [("data", Json.objL [("x", Json.null)])])).2
      (JObj.ofList [("x", Json.null)]) (by decide) (by decide)).1⟩⟩

/-- Claim C9: for a station key and an already time-sorted reading sequence,
format_station_data produces exactly one text block: the header line naming
the station followed by one line per reading in sequence order, each line
showing the timestamp, WBGT value and heat-stress label verbatim; a null
field is rendered as the literal "None", never as empty text or an error. -/
theorem C9_single_station_block (station : Json) (rs : List Reading) (out : String)
    (hs : format_station_data station rs = some out)
    (hsorted : rs.Pairwise (fun x y => keyValD x ≤ keyValD y)) :
    out = String.intercalate "\n"
      (("Station: " ++ station.pyStr) :: rs.map fmtLine) ∧
    Json.null.pyStr = "None" ∧
    fmtLine ⟨.str "2024-06-01T08:00:00Z", .null, .null⟩ =
      "  2024-06-01T08:00:00Z  WBGT: None  HeatStress: None" := by
  refine ⟨?_, rfl, rfl⟩
  simp only [format_station_data, Option.bind_eq_bind] at hs
  cases hsr : sortReadings rs with
  | none => rw [hsr] at hs; simp at hs
  | some srt =>
    rw [hsr] at hs
    simp only [Option.some_bind, Option.pure_def, Option.some.injEq] at hs
    have hid : srt = rs := by
      rw [sortReadings_eq hsr]
      exact isortLe_key_sorted_id keyValD rs hsorted
    rw [← hs, hid]

theorem C9_single_station_block_witness :
    (format_station_data (.str "Changi") c9Readings =
       some "Station: Changi\n  2024-06-01T07:00:00Z  WBGT: 27.0  HeatStress: Low\n  2024-06-01T08:00:00Z  WBGT: None  HeatStress: None") ∧
    ("Station: Changi\n  2024-06-01T07:00:00Z  WBGT: 27.0  HeatStress: Low\n  2024-06-01T08:00:00Z  WBGT: None  HeatStress: None" =
      String.intercalate "\n"
        (("Station: " ++ (Json.str "Changi").pyStr) :: c9Readings.map fmtLine)) :=
  ⟨by decide,
   (C9_single_station_block (.str "Changi") c9Readings _ (by decide)
      (by decide)).1⟩

/-- Claim C10: a reading whose station object is missing, or contains none of
townCenter, name and id, is neither dropped nor an error: its resolved key
is null, it lands in the null-keyed group, and the formatter's header for
that group reads "Station: None". -/
theorem C10_null_station_group :
    (∀ (dtv : Json) (rdf : JObj), lookupField rdf.toList "station" = none →
       extractReading dtv (.obj rdf) =
         some (Json.null, ⟨dtv, (lookupField rdf.toList "wbgt").getD .null,
                           (lookupField rdf.toList "heatStress").getD .null⟩)) ∧
    (∀ (dtv : Json) (rdf sf : JObj), lookupField rdf.toList "station" = some (.obj sf) →
       lookupField sf.toList "townCenter" = none →
       lookupField sf.toList "name" = none →
       lookupField sf.toList "id" = none →
       extractReading dtv (.obj rdf) =
         some (Json.null, ⟨dtv, (lookupField rdf.toList "wbgt").getD .null,
                           (lookupField rdf.toList "heatStress").getD .null⟩)) ∧
    (∀ (recs : List Json) (gs : GroupList), group_records recs = some gs →
       ∀ p ∈ streamOf recs, p.1 = Json.null →
         ∃ g, lookupGroup gs Json.null = some g ∧ p.2 ∈ g) ∧
    (∀ (rs : List Reading) (out : String),
       format_station_data Json.null rs = some out →
       ∃ lines, out = String.intercalate "\n" ("Station: None" :: lines)) := by
  refine ⟨?_, ?_, ?_, ?_⟩
  · intro dtv rdf h
    simp [extractReading, Json.get, Json.get1, h, Json.objL, JObj.ofList,
      JObj.toList, lookupField]
  · intro dtv rdf sf h h1 h2 h3
    simp [extractReading, Json.get, Json.get1, h, h1, h2, h3]
  · intro recs gs hg p hp hnull
    rw [group_records_eq hg, lookupGroup_groupPairs]
    have hmem : p ∈ (streamOf recs).filter (fun q => decide (q.1 = Json.null)) :=
      List.mem_filter.mpr ⟨hp, by simp [hnull]⟩
    have hne : ¬ (filteredFor (streamOf recs) Json.null).isEmpty = true := by
      simp only [filteredFor, List.isEmpty_iff, List.map_eq_nil_iff]
      intro hc
      rw [hc] at hmem
      cases hmem
    rw [if_neg hne]
    exact ⟨_, rfl, List.mem_map.mpr ⟨p, hmem, rfl⟩⟩
  · intro rs out hs
    simp only [format_station_data, Option.bind_eq_bind] at hs
    cases hsr : sortReadings rs with
    | none => rw [hsr] at hs; simp at hs
    | some srt =>
      rw [hsr] at hs
      simp only [Option.some_bind, Option.pure_def, Option.some.injEq] at hs
      exact ⟨srt.map fmtLine, hs.symm⟩

theorem C10_null_station_group_witness :
    (extractReading (.str "2024-06-01T08:00:00Z")
        (.obj (JObj.ofList [("wbgt", Json.num "28.5"), ("heatStress", Json.str "Moderate")])) =
      some (Json.null, ⟨.str "2024-06-01T08:00:00Z", .num "28.5", .str "Moderate"⟩)) ∧
    (group_wbgt_by_station c10Payload =
      some [(Json.null, [⟨.str "2024-06-01T08:00:00Z", .num "28.5", .str "Moderate"⟩])]) ∧
    (format_station_data Json.null
        [⟨.str "2024-06-01T08:00:00Z", .num "28.5", .str "Moderate"⟩] =
      some "Station: None\n  2024-06-01T08:00:00Z  WBGT: 28.5  HeatStress: Moderate") ∧
    (∃ g, lookupGroup [(Json.null,
        [⟨Json.str "2024-06-01T08:00:00Z", Json.num "28.5", Json.str "Moderate"⟩])] Json.null =
          some g ∧
      (⟨Json.str "2024-06-01T08:00:00Z", Json.num "28.5", Json.str "Moderate"⟩ : Reading) ∈ g) := by
  refine ⟨?_, by decide, by decide, ?_⟩
  · have h := (C10_null_station_group.1 (Json.str "2024-06-01T08:00:00Z")
      (JObj.ofList [("wbgt", Json.num "28.5"), ("heatStress", Json.str "Moderate")])
      (by decide))
    simpa using h
  · exact (C10_null_station_group.2.2.1
      [Json.objL [("datetime", .str "2024-06-01T08:00:00Z"),
        ("item", Json.objL [("readings", Json.arrL [
          Json.objL [("wbgt", .num "28.5"), ("heatStress", .str "Moderate")]])])]]
      [(Json.null, [⟨.str "2024-06-01T08:00:00Z", .num "28.5", .str "Moderate"⟩])]
      (by decide)
      (Json.null, (⟨.str "2024-06-01T08:00:00Z", .num "28.5", .str "Moderate"⟩ : Reading))
      (by decide) (by decide))

/-- Claim C5 counterexample: a payload whose record list is non-empty but
contains no readings has an empty QueryResult, yet the all-stations
formatter returns the empty block list instead of the single informational
block the claim requires. -/
theorem C5_counterexample :
    group_wbgt_by_station degenerateRecordsPayload = some [] ∧
    format_wbgt_by_station_split degenerateRecordsPayload = some [] ∧
    some ([] : List String) ≠ some ["No records found."] := by
  refine ⟨by decide, by decide, by decide⟩

/-- Claim C5 amended: the all-stations formatter produces the single
informational block exactly when the records value is falsy (in particular
for an empty record list); when the record list is non-empty but yields no
station groups, it returns the empty block list instead. -/
theorem C5_empty_result_blocks (data d records : Json)
    (hd : data.get "data" (Json.objL []) = some d)
    (hr : d.get "records" (Json.arrL []) = some records) :
    (records.truthy = false →
       format_wbgt_by_station_split data = some ["No records found."]) ∧
    (∀ recs, records.truthy = true → records.iter = some recs →
       group_records recs = some [] →
       format_wbgt_by_station_split data = some []) := by
  constructor
  · intro hfalsy
    simp [format_wbgt_by_station_split, hd, hr, hfalsy]
  · intro recs htrue hit hgrp
    simp [format_wbgt_by_station_split, hd, hr, htrue, hit, hgrp, sortedKeys, optMapM]

theorem C5_empty_result_blocks_witness :
    ((Json.objL [("data", Json.objL [("records", Json.arrL [])])]).get "data"
        (Json.objL []) = some (Json.objL [("records", Json.arrL [])])) ∧
    (format_wbgt_by_station_split (Json.objL [("data", Json.objL [("records", Json.arrL [])])]) =
      some ["No records found."]) ∧
    (format_wbgt_by_station_split degenerateRecordsPayload = some []) :=
  ⟨by decide,
   (C5_empty_result_blocks (Json.objL [("data", Json.objL [("records", Json.arrL [])])])
      (Json.objL [("records", Json.arrL [])]) (Json.arrL [])
      (by decide) (by decide)).1 (by decide),
   (C5_empty_result_blocks degenerateRecordsPayload
      (Json.objL [("records", Json.arrL [Json.objL []])])
      (Json.arrL [Json.objL []])
      (by decide) (by decide)).2 [Json.objL []] (by decide) (by decide) (by decide)⟩

/-- Claim C1 counterexample: a reading whose station has townCenter present
but null does NOT resolve to the name value: the whole payload groups under
the null key and no "Changi" group exists. -/
theorem C1_counterexample :
    group_wbgt_by_station c1Payload =
      some [(Json.null, [⟨.str "2024-06-01T08:00:00", .num "28.5", .str "Moderate"⟩])] ∧
    lookupGroup [(Json.null,
        [(⟨.str "2024-06-01T08:00:00", .num "28.5", .str "Moderate"⟩ : Reading)])]
      (Json.str "Changi") = none ∧
    Json.null ≠ Json.str "Changi" := by
  refine ⟨by decide, by decide, by decide⟩

/-- Claim C1 amended: the grouping step resolves every reading's StationKey
by key presence — the townCenter value if the key is present (even if its
value is null), else the name value if present (even if null), else the id
value, else null when the station object is absent or has none of the three
keys.  A present-but-null townCenter therefore resolves to null, not to the
name or id value. -/
theorem C1_station_key_resolution :
    (∀ (dtv : Json) (rdf sf : JObj), lookupField rdf.toList "station" = some (.obj sf) →
       (extractReading dtv (.obj rdf)).map Prod.fst =
         some (resolveStationKey sf.toList)) ∧
    (∀ (dtv : Json) (rdf : JObj), lookupField rdf.toList "station" = none →
       (extractReading dtv (.obj rdf)).map Prod.fst =
         some (resolveStationKey [])) := by
  constructor
  · intro dtv rdf sf h
    cases htc : lookupField sf.toList "townCenter" with
    | some v =>
      simp [extractReading, Json.get, Json.get1, h, htc, resolveStationKey]
    | none =>
      cases hn : lookupField sf.toList "name" with
      | some v =>
        simp [extractReading, Json.get, Json.get1, h, htc, hn, resolveStationKey]
      | none =>
        cases hi : lookupField sf.toList "id" with
        | some v =>
          simp [extractReading, Json.get, Json.get1, h, htc, hn, hi, resolveStationKey]
        | none =>
          simp [extractReading, Json.get, Json.get1, h, htc, hn, hi, resolveStationKey]
  · intro dtv rdf h
    simp [extractReading, Json.get, Json.get1, h, resolveStationKey, Json.objL,
      JObj.ofList, JObj.toList, lookupField]

theorem C1_station_key_resolution_witness :
    (lookupField (JObj.ofList [("station",
        Json.objL [("townCenter", Json.null), ("name", Json.str "Changi")]),
        ("wbgt", Json.num "28.5")]).toList "station" =
      some (.obj (JObj.ofList [("townCenter", Json.null), ("name", Json.str "Changi")]))) ∧
    ((extractReading (Json.str "2024-06-01T08:00:00")
        (.obj (JObj.ofList [("station",
          Json.objL [("townCenter", Json.null), ("name", Json.str "Changi")]),
          ("wbgt", Json.num "28.5")]))).map Prod.fst =
      some (resolveStationKey
        (JObj.ofList [("townCenter", Json.null), ("name", Json.str "Changi")]).toList)) ∧
    resolveStationKey
      (JObj.ofList [("townCenter", Json.null), ("name", Json.str "Changi")]).toList =
      Json.null :=
  ⟨by decide,
   (C1_station_key_resolution.1 (Json.str "2024-06-01T08:00:00")
      (JObj.ofList [("station",
        Json.objL [("townCenter", Json.null), ("name", Json.str "Changi")]),
        ("wbgt", Json.num "28.5")])
      (JObj.ofList [("townCenter", Json.null), ("name", Json.str "Changi")])
      (by decide)),
   by decide⟩

/-- Claim C2 counterexample: "2024-1-5" is not of the claim's YYYY-MM-DD
shape and contains no "T", so the claim requires it to fail with the
InvalidDateFormat message without fetching; the code accepts it and fetches
with it unchanged.  ("2024-02-30" conversely matches the claim's pattern
but is rejected by the calendar parse.) -/
theorem C2_counterexample :
    specYmdPattern "2024-1-5" = false ∧
    ("2024-1-5".toList.contains 'T') = false ∧
    validDateInput "2024-1-5" = true ∧
    (handle_date "2024-1-5" (.ok (Json.objL [])) ⟨none⟩).2.2 = some "2024-1-5" ∧
    (handle_date "2024-1-5" (.ok (Json.objL [])) ⟨none⟩).1 ≠ [.msg invalidDateMsg] ∧
    specYmdPattern "2024-02-30" = true ∧
    validDateInput "2024-02-30" = false := by
  refine ⟨by decide, by decide, by decide, by decide, by decide, by decide, by decide⟩

/-- Claim C2 amended: the validator accepts every calendar-valid zero-padded
YYYY-MM-DD string and passes it through unchanged as the fetch parameter
(the day must be valid for the month and year, not merely 01 to 31; some
non-zero-padded forms such as "2024-1-5" are also accepted); a string
containing "T" is accepted when the ISO-8601 parser accepts it (a subset of
ISO-8601 exemplified below); "2024-13-40", "not-a-date" and the empty
string each fail with the InvalidDateFormat message, leave the state
unchanged, and do not fetch. -/
theorem C2_date_validation :
    (∀ y m d : Nat, 1 ≤ y → y ≤ 9999 → 1 ≤ m → m ≤ 12 → 1 ≤ d → d ≤ daysInMonth y m →
       validDateInput (padYmd y m d) = true ∧
       ∀ (f : Except String Json) (ctx : Ctx),
         (handle_date (padYmd y m d) f ctx).2.2 = some (padYmd y m d)) ∧
    (∀ (f : Except String Json) (ctx : Ctx),
       handle_date "2024-13-40" f ctx = ([.msg invalidDateMsg], ctx, none) ∧
       handle_date "not-a-date" f ctx = ([.msg invalidDateMsg], ctx, none) ∧
       handle_date "" f ctx = ([.msg invalidDateMsg], ctx, none)) ∧
    validDateInput "2024-06-01T08:00:00" = true ∧
    validDateInput "2024-06-01T08:00:00+08:00" = true ∧
    validDateInput "2024-06-01T08:30" = true := by
  refine ⟨?_, ?_, by decide, by decide, by decide⟩
  · intro y m d hy1 hy hm1 hm hd1 hd
    have hstrp := strptimeYmd_padYmd hy1 hy hm1 hm hd1 hd
    have hnoT : ((padYmd y m d).toList.contains 'T') = false := padYmd_no_T y m d
    have hvalid : validDateInput (padYmd y m d) = true := by
      simp [validDateInput, hstrp]
      exact Or.inl (by simpa using hnoT)
    refine ⟨hvalid, fun f ctx => ?_⟩
    have hstrip := pyStrip_padYmd y m d
    rw [handle_date_fetchArg (by rw [hstrip]; exact hvalid) f ctx, hstrip]
  · intro f ctx
    refine ⟨?_, ?_, ?_⟩ <;>
      exact handle_date_invalid (by decide) f ctx

theorem C2_date_validation_witness :
    (validDateInput (padYmd 2024 6 1) = true) ∧
    (padYmd 2024 6 1 = "2024-06-01") ∧
    ((handle_date (padYmd 2024 6 1) (.ok (Json.objL [])) ⟨none⟩).2.2 =
      some (padYmd 2024 6 1)) ∧
    (handle_date "2024-13-40" (.error "boom") ⟨none⟩ =
      ([.msg invalidDateMsg], (⟨none⟩ : Ctx), none)) :=
  ⟨(C2_date_validation.1 2024 6 1 (by decide) (by decide) (by decide) (by decide)
      (by decide) (by decide)).1,
   by decide,
   (C2_date_validation.1 2024 6 1 (by decide) (by decide) (by decide) (by decide)
      (by decide) (by decide)).2 (.ok (Json.objL [])) ⟨none⟩,
   (C2_date_validation.2.1 (.error "boom") ⟨none⟩).1⟩

theorem flatMapZ_no_Z {cs : List Char} (h : 'Z' ∉ cs) :
    cs.flatMap (fun c => if c = 'Z' then "+00:00".toList else [c]) = cs := by
  induction cs with
  | nil => rfl
  | cons a t ih =>
    have hne : a ≠ 'Z' := by
      rintro rfl
      exact h (List.mem_cons_self _ t)
    rw [List.flatMap_cons, if_neg hne, ih (fun hm => h (List.mem_cons_of_mem a hm))]
    rfl

theorem pyReplaceZ_suffix {cs : List Char} (h : 'Z' ∉ cs) :
    pyReplaceZ ⟨cs ++ ['Z']⟩ = ⟨cs ++ "+00:00".toList⟩ := by
  have hflat : (cs ++ ['Z']).flatMap
      (fun c => if c = 'Z' then "+00:00".toList else [c]) = cs ++ "+00:00".toList := by
    rw [List.flatMap_append, flatMapZ_no_Z h]
    rfl
  exact congrArg String.mk hflat

/-- Claim C4: the displayed sequence is the stable ascending sort of the
group by parsed timestamp: it is a permutation of the input, pairwise
ordered by the parsed keys, readings with equal parsed timestamps keep
their original relative order (the filter at every fixed key value is
unchanged), and a timestamp ending in a literal "Z" is parsed as if that
suffix were "+00:00". -/
theorem C4_stable_time_sort (rs out : List Reading) (h : sortReadings rs = some out) :
    out.Perm rs ∧
    out.Pairwise (fun x y => keyValD x ≤ keyValD y) ∧
    (∀ p : Bool × Int,
       out.filter (fun r => decide (sortKeyOf r = some p)) =
       rs.filter (fun r => decide (sortKeyOf r = some p))) ∧
    (∀ cs : List Char, 'Z' ∉ cs →
       pyReplaceZ ⟨cs ++ ['Z']⟩ = ⟨cs ++ "+00:00".toList⟩) := by
  refine ⟨sortReadings_perm h, sortReadings_sorted h, ?_,
    fun cs hcs => pyReplaceZ_suffix hcs⟩
  intro p
  obtain ⟨p1, p2⟩ := p
  by_cases hex : ∃ x ∈ rs, sortKeyOf x = some (p1, p2)
  · rcases hex with ⟨x0, hx0, hk0⟩
    have haw0 : keyAwD x0 = p1 := by simp [keyAwD, hk0]
    have hcong : ∀ r ∈ rs,
        (decide (sortKeyOf r = some (p1, p2))) = (keyValD r == p2) := by
      intro r hr
      rcases Option.isSome_iff_exists.mp (sortReadings_keys_some h r hr) with ⟨⟨b, n⟩, hb⟩
      have haw : keyAwD r = keyAwD x0 := sortReadings_awareness h r hr x0 hx0
      rw [haw0] at haw
      have hbp : b = p1 := by simpa [keyAwD, hb] using haw
      have hn : keyValD r = n := by simp [keyValD, hb]
      subst hbp
      simp only [hb, hn, Option.some.injEq, Prod.mk.injEq, true_and]
      exact Bool.eq_iff_iff.mpr (by simp)
    have hcong_out : ∀ r ∈ out,
        (decide (sortKeyOf r = some (p1, p2))) = (keyValD r == p2) :=
      fun r hr => hcong r ((sortReadings_perm h).mem_iff.mp hr)
    rw [List.filter_congr hcong_out, List.filter_congr hcong]
    exact sortReadings_stable h p2
  · push_neg at hex
    have h1 : rs.filter (fun r => decide (sortKeyOf r = some (p1, p2))) = [] :=
      List.filter_eq_nil_iff.mpr (fun a ha => by simpa using hex a ha)
    have h2 : out.filter (fun r => decide (sortKeyOf r = some (p1, p2))) = [] :=
      List.filter_eq_nil_iff.mpr (fun a ha => by
        simpa using hex a ((sortReadings_perm h).mem_iff.mp ha))
    rw [h1, h2]

theorem C4_stable_time_sort_witness :
    sortReadings c4Readings = some c4Sorted ∧
    c4Sorted.Perm c4Readings ∧
    c4Sorted.Pairwise (fun x y => keyValD x ≤ keyValD y) :=
  ⟨by decide,
   (C4_stable_time_sort c4Readings c4Sorted (by decide)).1,
   (C4_stable_time_sort c4Readings c4Sorted (by decide)).2.1⟩

/-- Claim C3 counterexample: two records with the same station and the same
parsed timestamp but different WBGT values: permuting the record list
permutes the tie, so grouping plus the per-station sort yields different
QueryResults (ties are broken by insertion order, which the permutation
changes). -/
theorem C3_counterexample :
    ([c3rec "1", c3rec "2"].Perm [c3rec "2", c3rec "1"]) ∧
    queryOfRecords [c3rec "1", c3rec "2"] ≠ queryOfRecords [c3rec "2", c3rec "1"] := by
  refine ⟨by decide, by decide⟩

/-- Claim C3 amended: permuting the input record list yields a QueryResult
with the same lookups (hence the same key set and the same sorted sequence
for every key) provided no two readings of one station share a parsed
timestamp; when timestamps tie inside a station, only the key set and the
per-key multisets are preserved, the tied order following input order. -/
theorem C3_perm_invariant (recs1 recs2 : List Json) (q1 q2 : GroupList)
    (hp : recs1.Perm recs2)
    (h1 : queryOfRecords recs1 = some q1)
    (h2 : queryOfRecords recs2 = some q2)
    (hdist : ∀ g ∈ q1, (g.2).Pairwise (fun x y => keyValD x ≠ keyValD y)) :
    ∀ K, lookupGroup q1 K = lookupGroup q2 K := by
  obtain ⟨gs1, hg1, hs1⟩ : ∃ gs, group_records recs1 = some gs ∧
      sortStationGroups gs = some q1 := by
    simp only [queryOfRecords, Option.bind_eq_bind] at h1
    cases hg : group_records recs1 with
    | none => rw [hg] at h1; simp at h1
    | some gs =>
      rw [hg] at h1
      simp only [Option.some_bind] at h1
      exact ⟨gs, rfl, h1⟩
  obtain ⟨gs2, hg2, hs2⟩ : ∃ gs, group_records recs2 = some gs ∧
      sortStationGroups gs = some q2 := by
    simp only [queryOfRecords, Option.bind_eq_bind] at h2
    cases hg : group_records recs2 with
    | none => rw [hg] at h2; simp at h2
    | some gs =>
      rw [hg] at h2
      simp only [Option.some_bind] at h2
      exact ⟨gs, rfl, h2⟩
  intro K
  have hperm : (filteredFor (streamOf recs1) K).Perm (filteredFor (streamOf recs2) K) :=
    ((streamOf_perm hp).filter _).map _
  have hl1 : lookupGroup gs1 K =
      if (filteredFor (streamOf recs1) K).isEmpty then none
      else some (filteredFor (streamOf recs1) K) := by
    rw [group_records_eq hg1, lookupGroup_groupPairs]
  have hl2 : lookupGroup gs2 K =
      if (filteredFor (streamOf recs2) K).isEmpty then none
      else some (filteredFor (streamOf recs2) K) := by
    rw [group_records_eq hg2, lookupGroup_groupPairs]
  by_cases hempty : (filteredFor (streamOf recs1) K).isEmpty
  · have hempty2 : (filteredFor (streamOf recs2) K).isEmpty = true := by
      simp only [List.isEmpty_iff] at hempty ⊢
      exact (hempty ▸ hperm.symm).eq_nil
    rw [(sortStationGroups_lookup hs1 K).1 (by rw [hl1, if_pos hempty]),
      (sortStationGroups_lookup hs2 K).1 (by rw [hl2, if_pos hempty2])]
  · have hempty2 : ¬ (filteredFor (streamOf recs2) K).isEmpty = true := by
      simp only [List.isEmpty_iff] at hempty ⊢
      intro hc
      exact hempty ((hc ▸ hperm).eq_nil)
    rcases (sortStationGroups_lookup hs1 K).2 _ (by rw [hl1, if_neg hempty]) with
      ⟨o1, ho1, hq1⟩
    rcases (sortStationGroups_lookup hs2 K).2 _ (by rw [hl2, if_neg hempty2]) with
      ⟨o2, ho2, hq2⟩
    rw [hq1, hq2]
    have hdist1 : o1.Pairwise (fun x y => keyValD x ≠ keyValD y) := by
      simp only [lookupGroup] at hq1
      cases hfind : q1.find? (fun g => decide (g.1 = K)) with
      | none => rw [hfind] at hq1; simp at hq1
      | some pr =>
        rw [hfind] at hq1
        simp only [Option.map_some', Option.some.injEq] at hq1
        have hmem := List.mem_of_find?_eq_some hfind
        rw [← hq1]
        exact hdist pr hmem
    have hoperm : o1.Perm o2 :=
      (sortReadings_perm ho1).trans (hperm.trans (sortReadings_perm ho2).symm)
    rw [eq_of_perm_key_sorted keyValD o1 o2 hoperm (sortReadings_sorted ho1)
      (sortReadings_sorted ho2) hdist1]

theorem C3_perm_invariant_witness :
    (queryOfRecords
       [c3recB "2024-06-01T08:00:00" "Changi" "28.5",
        c3recB "2024-06-01T09:00:00" "Sentosa" "30.1",
        c3recB "2024-06-01T07:00:00" "Changi" "27.0"] = some c3q1) ∧
    lookupGroup c3q1 (Json.str "Changi") =
      lookupGroup ((queryOfRecords
        [c3recB "2024-06-01T07:00:00" "Changi" "27.0",
         c3recB "2024-06-01T08:00:00" "Changi" "28.5",
         c3recB "2024-06-01T09:00:00" "Sentosa" "30.1"]).getD []) (Json.str "Changi") := by
  refine ⟨by decide, ?_⟩
  have h := C3_perm_invariant
    [c3recB "2024-06-01T08:00:00" "Changi" "28.5",
     c3recB "2024-06-01T09:00:00" "Sentosa" "30.1",
     c3recB "2024-06-01T07:00:00" "Changi" "27.0"]
    [c3recB "2024-06-01T07:00:00" "Changi" "27.0",
     c3recB "2024-06-01T08:00:00" "Changi" "28.5",
     c3recB "2024-06-01T09:00:00" "Sentosa" "30.1"]
    c3q1
    [(Json.str "Changi", [⟨.str "2024-06-01T07:00:00", .num "27.0", .null⟩,
                          ⟨.str "2024-06-01T08:00:00", .num "28.5", .null⟩]),
     (Json.str "Sentosa", [⟨.str "2024-06-01T09:00:00", .num "30.1", .null⟩])]
    (by decide) (by decide) (by decide) (by decide) (Json.str "Changi")
  rw [h]
  have hq2 : queryOfRecords
      [c3recB "2024-06-01T07:00:00" "Changi" "27.0",
       c3recB "2024-06-01T08:00:00" "Changi" "28.5",
       c3recB "2024-06-01T09:00:00" "Sentosa" "30.1"] =
      some [(Json.str "Changi", [⟨.str "2024-06-01T07:00:00", .num "27.0", .null⟩,
                                 ⟨.str "2024-06-01T08:00:00", .num "28.5", .null⟩]),
            (Json.str "Sentosa", [⟨.str "2024-06-01T09:00:00", .num "30.1", .null⟩])] := by
    decide
  rw [hq2]
  rfl

